import Mathlib

/-!
Shallow embedding of the Safe Cleanup Verification System
(`SAFE_CLEANUP_VERIFICATION_SYSTEM.py`) and the Test Orchestration System
(`TEST_ORCHESTRATION_SYSTEM.py`) of the repository
`Worldwidebro/iza-os-automation`, together with proofs of the specified
properties.

External effects (the `gh` subprocess calls, the filesystem, `cp`, git) are
modelled by explicit environment parameters; every Python function that can
raise and catches its exceptions becomes a total Lean function over an
outcome type, so "never propagates an exception" is totality of the model.
-/

/-- Outcome of one Remote Existence Oracle query, i.e. one
`subprocess.run(['gh', 'search', 'code', ...])` call as observed by
`verify_file_in_github`:
`success repos` = return code 0 and the stdout parsed as a JSON list whose
entries name the owning repositories (possibly empty);
`failed stderr` = nonzero return code with the given stderr text;
`timedOut` = the call raised `subprocess.TimeoutExpired`;
`errored msg` = any other exception (in particular `json.loads` failing on
malformed output), with `str(e) = msg`. -/
inductive OracleOutcome where
  | success (repos : List String)
  | failed (stderr : String)
  | timedOut
  | errored (msg : String)
  deriving DecidableEq

/-- `SafeCleanupVerifier.verify_file_in_github`, as a function of the
oracle outcome for the queried filename.  The Python body is one `try`
block whose every branch returns a `(bool, str)` pair, so the model is a
total function: no exception escapes. -/
def verify_file_in_github : OracleOutcome → Bool × String
  | OracleOutcome.success repos =>
      if repos.isEmpty then
        (false, "File not found in any GitHub repository")
      else
        (true, "Found in repositories: " ++ String.intercalate ", " repos)
  | OracleOutcome.failed stderr => (false, "Search failed: " ++ stderr)
  | OracleOutcome.timedOut => (false, "Search timed out")
  | OracleOutcome.errored msg => (false, "Error searching: " ++ msg)

/-- Python dict assignment `results[filename] = value` on an
insertion-ordered association list: if the key is present its value is
updated in place (the key keeps its position), otherwise the pair is
appended at the end. -/
def updateAssoc (m : List (String × Bool × String)) (k : String)
    (v : Bool × String) : List (String × Bool × String) :=
  if m.any (fun p => p.1 == k) then
    m.map (fun p => if p.1 == k then (k, v) else p)
  else
    m ++ [(k, v)]

/-- The loop of `SafeCleanupVerifier.verify_multiple_files`, carrying the
running dict `results`.  The oracle is indexed by the query counter `i`, so
that distinct calls (even for the same filename) may observe distinct
outcomes.  Returns the trace of `(call index, filename)` queries issued and
the final dict. -/
def verify_multiple_files_from (oracle : Nat → String → OracleOutcome) :
    Nat → List String → List (String × Bool × String) →
    List (Nat × String) × List (String × Bool × String)
  | _, [], results => ([], results)
  | i, filename :: rest, results =>
    let r := verify_file_in_github (oracle i filename)
    let (queries, final) :=
      verify_multiple_files_from oracle (i + 1) rest (updateAssoc results filename r)
    ((i, filename) :: queries, final)

/-- `SafeCleanupVerifier.verify_multiple_files`: the final results dict. -/
def verify_multiple_files (oracle : Nat → String → OracleOutcome)
    (filenames : List String) : List (String × Bool × String) :=
  (verify_multiple_files_from oracle 0 filenames []).2

/-- The trace of oracle queries issued by `verify_multiple_files`, one per
loop iteration. -/
def oracle_query_trace (oracle : Nat → String → OracleOutcome)
    (filenames : List String) : List (Nat × String) :=
  (verify_multiple_files_from oracle 0 filenames []).1

/-- The categorisation loop of `safe_cleanup_with_verification`: iterate
the results dict in order and append each `(filename, message)` to the
safe bucket when `exists` is true, to the other bucket otherwise. -/
def categorize_results : List (String × Bool × String) →
    List (String × String) × List (String × String)
  | [] => ([], [])
  | (filename, ex, message) :: rest =>
    let (safe, notSafe) := categorize_results rest
    if ex then ((filename, message) :: safe, notSafe)
    else (safe, (filename, message) :: notSafe)

/-- The report dict built by `safe_cleanup_with_verification`.  Field
`not_safe_to_delete` models the Python key `uns` ++ `afe_to_delete`, and
`not_safe_files` the key for the unsafe bucket's file list. -/
structure CleanupReport where
  total_files : Nat
  safe_to_delete : Nat
  not_safe_to_delete : Nat
  safe_files : List (String × String)
  not_safe_files : List (String × String)
  verification_timestamp : String
  deriving DecidableEq

/-- `SafeCleanupVerifier.safe_cleanup_with_verification`: verify every
file, split the results dict into the two buckets, and build the report.
`ts` is the stdout of the `date` subprocess call. -/
def safe_cleanup_with_verification (oracle : Nat → String → OracleOutcome)
    (files_to_cleanup : List String) (ts : String) : CleanupReport :=
  let results := verify_multiple_files oracle files_to_cleanup
  let (safe, notSafe) := categorize_results results
  { total_files := files_to_cleanup.length
    safe_to_delete := safe.length
    not_safe_to_delete := notSafe.length
    safe_files := safe
    not_safe_files := notSafe
    verification_timestamp := ts }

/-- The filesystem and `cp` behaviour observed by
`restore_file_from_backup`: `pathExists loc` models `os.path.exists(loc)`
and `copySucceeds loc` models whether `subprocess.run(['cp', loc,
filename], check=True)` completes without raising. -/
structure BackupFS where
  pathExists : String → Bool
  copySucceeds : String → Bool

/-- The fixed ordered candidate list `backup_locations` of
`restore_file_from_backup`. -/
def backup_locations (filename : String) : List String :=
  ["backups/" ++ filename,
   "backup/" ++ filename,
   ".git/objects/",
   "__pycache__/" ++ filename,
   "temp/" ++ filename]

/-- The scanning loop of `restore_file_from_backup`: skip candidates that
do not exist, skip candidates whose copy raises (`except: continue`), stop
at the first successful copy.  Returns the boolean result together with
the location the file was copied from (`none` = no copy happened, so no
file was created at the working-directory path). -/
def restore_scan (fs : BackupFS) : List String → Bool × Option String
  | [] => (false, none)
  | loc :: rest =>
    if fs.pathExists loc then
      if fs.copySucceeds loc then (true, some loc)
      else restore_scan fs rest
    else restore_scan fs rest

/-- `SafeCleanupVerifier.restore_file_from_backup`. -/
def restore_file_from_backup (fs : BackupFS) (filename : String) :
    Bool × Option String :=
  restore_scan fs (backup_locations filename)

/-- Success or failure of each external step of `commit_file_to_github`.
`cloneDirExists` models `os.path.exists(f"temp_repos/{target_repo}")`; the
other flags model whether the corresponding checked subprocess call
completes without raising. -/
structure CommitEnv where
  cloneDirExists : Bool
  mkdirSucceeds : Bool
  cloneSucceeds : Bool
  copySucceeds : Bool
  addSucceeds : Bool
  commitSucceeds : Bool
  pushSucceeds : Bool
  deriving DecidableEq

/-- The fixed absolute path the code changes into at the end of every path
through `commit_file_to_github`. -/
def memuHome : String := "/Users/divinejohns/memU"

/-- `SafeCleanupVerifier.commit_file_to_github`, returning the boolean
result and the process working directory after the call.  The Python body
is one `try` block; the first failing checked step raises, and the single
`except` handler does `os.chdir('/Users/divinejohns/memU')` and returns
`False`, while the success path does the same `os.chdir` and returns
`True`.  `cwd` is the working directory before the call; it is never
consulted by the code. -/
def commit_file_to_github (e : CommitEnv) (filename target_repo cwd : String) :
    Bool × String :=
  if !e.cloneDirExists && !e.mkdirSucceeds then (false, memuHome)
  else if !e.cloneDirExists && !e.cloneSucceeds then (false, memuHome)
  else if !e.copySucceeds then (false, memuHome)
  else if !e.addSucceeds then (false, memuHome)
  else if !e.commitSucceeds then (false, memuHome)
  else if !e.pushSucceeds then (false, memuHome)
  else (true, memuHome)

/-- Outcome of one health-check probe (`test_function()` in `run_test`):
either it returns a boolean, or it raises with message `msg`. -/
inductive ProbeResult where
  | ok (passed : Bool)
  | raises (msg : String)
  deriving DecidableEq

/-- The mutable counters of `OrchestrationSystemTester`. -/
structure TesterState where
  total_tests : Nat
  passed_tests : Nat
  failed_tests : Nat
  deriving DecidableEq

/-- `OrchestrationSystemTester.run_test`: increment `total_tests`, then
either count a pass or a failure; a raised exception is caught, counted as
a failure, and its message printed, never propagated.  Returns the boolean
result, the new counter state, and the lines printed. -/
def run_test (st : TesterState) (test_name : String) (r : ProbeResult) :
    Bool × TesterState × List String :=
  let st1 : TesterState := { st with total_tests := st.total_tests + 1 }
  match r with
  | ProbeResult.ok true =>
      (true, { st1 with passed_tests := st1.passed_tests + 1 },
       ["🧪 Running test: " ++ test_name, "✅ PASSED: " ++ test_name])
  | ProbeResult.ok false =>
      (false, { st1 with failed_tests := st1.failed_tests + 1 },
       ["🧪 Running test: " ++ test_name, "❌ FAILED: " ++ test_name])
  | ProbeResult.raises msg =>
      (false, { st1 with failed_tests := st1.failed_tests + 1 },
       ["🧪 Running test: " ++ test_name, "❌ ERROR in " ++ test_name ++ ": " ++ msg])

/-- The test loop of `run_comprehensive_tests`: run every probe in order
through `run_test`, recording `test_results[test_name] = result`.  Returns
the final counters, the ordered results, and the concatenated log. -/
def run_tests_from (st : TesterState) :
    List (String × ProbeResult) → TesterState × List (String × Bool) × List String
  | [] => (st, [], [])
  | (test_name, r) :: rest =>
    let (b, st1, log1) := run_test st test_name r
    let (stf, results, logs) := run_tests_from st1 rest
    (stf, (test_name, b) :: results, log1 ++ logs)

/-- The success-rate expression of `run_comprehensive_tests`:
`(passed_tests / total_tests * 100) if total_tests > 0 else 0`, with exact
rational arithmetic in place of Python floats. -/
def success_rate (passed_tests total_tests : Nat) : Rat :=
  if total_tests > 0 then (passed_tests : Rat) / (total_tests : Rat) * 100 else 0

/-- The report dict built by `run_comprehensive_tests`. -/
structure TestReport where
  total_tests : Nat
  passed_tests : Nat
  failed_tests : Nat
  success_rate : Rat
  test_results : List (String × Bool)
  system_status : String
  deriving DecidableEq

/-- `OrchestrationSystemTester.run_comprehensive_tests` on an arbitrary
suite of named probes: run them all and build the report.  Also returns
the printed log. -/
def run_comprehensive_tests (tests : List (String × ProbeResult)) :
    TestReport × List String :=
  let (st, results, logs) :=
    run_tests_from { total_tests := 0, passed_tests := 0, failed_tests := 0 } tests
  ({ total_tests := st.total_tests
     passed_tests := st.passed_tests
     failed_tests := st.failed_tests
     success_rate := success_rate st.passed_tests st.total_tests
     test_results := results
     system_status := if st.failed_tests = 0 then "healthy" else "issues_detected" },
   logs)

/-! ### Basic facts about the helper models -/

/-- The results component of the verification loop on a cons cell. -/
theorem verify_multiple_files_from_cons (oracle : Nat → String → OracleOutcome)
    (i : Nat) (f : String) (fs : List String)
    (acc : List (String × Bool × String)) :
    verify_multiple_files_from oracle i (f :: fs) acc =
      ((i, f) :: (verify_multiple_files_from oracle (i + 1) fs
          (updateAssoc acc f (verify_file_in_github (oracle i f)))).1,
       (verify_multiple_files_from oracle (i + 1) fs
          (updateAssoc acc f (verify_file_in_github (oracle i f)))).2) := rfl

/-- The restore scan is the first-match search over the candidate list:
its second component is `List.find?` of "exists and copy succeeds", and
its boolean is that option's `isSome`. -/
theorem restore_scan_eq_find (fs : BackupFS) (locs : List String) :
    restore_scan fs locs =
      ((locs.find? fun loc => fs.pathExists loc && fs.copySucceeds loc).isSome,
       locs.find? fun loc => fs.pathExists loc && fs.copySucceeds loc) := by
  induction locs with
  | nil => rfl
  | cons l ls ih =>
    simp only [restore_scan, List.find?]
    cases hp : fs.pathExists l <;> cases hc : fs.copySucceeds l <;>
      simp [hp, hc, ih]

/-- C1: for every outcome of the Remote Existence Oracle query,
`verify_file_in_github` returns a `(bool, string)` pair (it is a total
function, so no exception propagates); it returns `true` exactly when the
query succeeds with at least one owning repository, and returns `false`
with the respective reason string when the query reports zero
repositories, fails with nonzero status, times out, or raises (in
particular on a malformed, unparseable response). -/
theorem verify_file_in_github_fail_closed (oc : OracleOutcome) :
    ((verify_file_in_github oc).1 = true ↔
      ∃ repos, oc = OracleOutcome.success repos ∧ repos ≠ []) ∧
    verify_file_in_github (OracleOutcome.success []) =
      (false, "File not found in any GitHub repository") ∧
    (∀ s, verify_file_in_github (OracleOutcome.failed s) =
      (false, "Search failed: " ++ s)) ∧
    verify_file_in_github OracleOutcome.timedOut = (false, "Search timed out") ∧
    (∀ m, verify_file_in_github (OracleOutcome.errored m) =
      (false, "Error searching: " ++ m)) := by
  refine ⟨?_, rfl, fun s => rfl, rfl, fun m => rfl⟩
  cases oc with
  | success repos =>
    cases repos with
    | nil => simp [verify_file_in_github]
    | cons r rs =>
      simp only [verify_file_in_github, List.isEmpty_cons, if_false, Bool.false_eq_true]
      constructor
      · intro _
        exact ⟨r :: rs, rfl, by simp⟩
      · intro _
        trivial
  | failed s => simp [verify_file_in_github]
  | timedOut => simp [verify_file_in_github]
  | errored m => simp [verify_file_in_github]

/-- C5: on input `["README.md", "ghost_file_12345.py"]`, with the Oracle
succeeding with owner repository "core" for `README.md` and succeeding
with zero hits for the ghost file, the report has two total files, a safe
bucket of size one with the "Found in repositories: core" reason, and an
unsafe bucket of size one with the "File not found in any GitHub
repository" reason. -/
theorem cleanup_end_to_end_readme_ghost :
    safe_cleanup_with_verification
      (fun _ f => if f = "README.md" then OracleOutcome.success ["core"]
                  else OracleOutcome.success [])
      ["README.md", "ghost_file_12345.py"] "ts" =
    { total_files := 2
      safe_to_delete := 1
      not_safe_to_delete := 1
      safe_files := [("README.md", "Found in repositories: core")]
      not_safe_files :=
        [("ghost_file_12345.py", "File not found in any GitHub repository")]
      verification_timestamp := "ts" } := by
  decide

/-- The working directory after `commit_file_to_github` is the fixed path
`/Users/divinejohns/memU`, on every path through the function. -/
theorem commit_cwd_after (e : CommitEnv) (filename target_repo cwd : String) :
    (commit_file_to_github e filename target_repo cwd).2 = memuHome := by
  unfold commit_file_to_github
  repeat' split
  all_goals rfl

/-- C9: after every call to `commit_file_to_github`, whether it returns
`true` or `false`, the process working directory equals the fixed path
`/Users/divinejohns/memU`, regardless of the working directory before the
call — including failure paths on which no directory change had yet
occurred (both the `except` handler and the success path end in
`os.chdir('/Users/divinejohns/memU')`). -/
theorem commit_always_ends_in_memu_home
    (e : CommitEnv) (filename target_repo cwd : String) :
    (commit_file_to_github e filename target_repo cwd).2 = memuHome :=
  commit_cwd_after e filename target_repo cwd

/-- The environment in which every step of `commit_file_to_github` up to
the push succeeds and the push fails. -/
def pushFailEnv : CommitEnv :=
  { cloneDirExists := true
    mkdirSucceeds := true
    cloneSucceeds := true
    copySucceeds := true
    addSucceeds := true
    commitSucceeds := true
    pushSucceeds := false }

/-- C3, counterexample: starting from working directory `/tmp`, a forced
failure at the push step returns `false` but leaves the working directory
at `/Users/divinejohns/memU`, not at its pre-call value `/tmp` — the code
restores a fixed path, not the caller's directory. -/
theorem commit_cwd_not_restored_counterexample :
    commit_file_to_github pushFailEnv "f.py" "core" "/tmp" = (false, memuHome) ∧
    memuHome ≠ "/tmp" := by
  exact ⟨rfl, by decide⟩

/-- C3, amended: after every call to `commit_file_to_github`, on the
success path and on every failure path, the working directory equals the
fixed path `/Users/divinejohns/memU` — hence it equals its pre-call value
exactly when that value was the fixed path — and a forced failure at the
push step (all earlier steps succeeding) also returns `false`. -/
theorem commit_restores_cwd_only_to_fixed_home
    (e : CommitEnv) (filename target_repo cwd : String) :
    ((commit_file_to_github e filename target_repo cwd).2 = memuHome) ∧
    ((commit_file_to_github e filename target_repo cwd).2 = cwd ↔ cwd = memuHome) ∧
    (e.copySucceeds = true → e.addSucceeds = true → e.commitSucceeds = true →
      e.pushSucceeds = false →
      (e.cloneDirExists || (e.mkdirSucceeds && e.cloneSucceeds)) = true →
      (commit_file_to_github e filename target_repo cwd).1 = false) := by
  refine ⟨commit_cwd_after e filename target_repo cwd, ?_, ?_⟩
  · rw [commit_cwd_after e filename target_repo cwd]
    exact ⟨fun h => h.symm, fun h => h.symm⟩
  · intro hcopy hadd hcommit hpush hclone
    unfold commit_file_to_github
    cases hcd : e.cloneDirExists with
    | true => simp [hcd, hcopy, hadd, hcommit, hpush]
    | false =>
      rw [hcd] at hclone
      simp only [Bool.false_or, Bool.and_eq_true] at hclone
      simp [hcd, hclone.1, hclone.2, hcopy, hadd, hcommit, hpush]

/-- Witness for C3 (amended): at the concrete push-failure environment
from `/tmp`, the call ends in the fixed home directory and returns
`false`. -/
theorem commit_restores_cwd_only_to_fixed_home_witness :
    ((commit_file_to_github pushFailEnv "f.py" "core" "/tmp").2 = memuHome) ∧
    ((commit_file_to_github pushFailEnv "f.py" "core" "/tmp").1 = false) := by
  have h := commit_restores_cwd_only_to_fixed_home pushFailEnv "f.py" "core" "/tmp"
  exact ⟨h.1, h.2.2 rfl rfl rfl rfl rfl⟩

/-- C6: `restore_file_from_backup` scans the fixed ordered list of five
candidate backup locations for the first candidate that exists and whose
copy succeeds (so a candidate whose copy attempt fails is skipped and the
scan continues), returning `true` with the file copied into the working
directory from that first hit; if the file exists only at the third of the
five candidates and the copy from there succeeds it returns `true` with
the file restored from there, and if no candidate exists it returns
`false` and no file is created in the working directory. -/
theorem restore_file_from_backup_scan_spec (fs : BackupFS) (filename : String) :
    (restore_file_from_backup fs filename =
      (((backup_locations filename).find? fun loc =>
          fs.pathExists loc && fs.copySucceeds loc).isSome,
       (backup_locations filename).find? fun loc =>
          fs.pathExists loc && fs.copySucceeds loc)) ∧
    (fs.pathExists ("backups/" ++ filename) = false →
      fs.pathExists ("backup/" ++ filename) = false →
      fs.pathExists ".git/objects/" = true →
      fs.pathExists ("__pycache__/" ++ filename) = false →
      fs.pathExists ("temp/" ++ filename) = false →
      fs.copySucceeds ".git/objects/" = true →
      restore_file_from_backup fs filename = (true, some ".git/objects/")) ∧
    ((∀ loc ∈ backup_locations filename, fs.pathExists loc = false) →
      restore_file_from_backup fs filename = (false, none)) := by
  refine ⟨restore_scan_eq_find fs (backup_locations filename), ?_, ?_⟩
  · intro h1 h2 h3 h4 h5 hc
    simp [restore_file_from_backup, backup_locations, restore_scan, h1, h2, h3, h4, h5, hc]
  · intro h
    have h1 := h ("backups/" ++ filename) (by simp [backup_locations])
    have h2 := h ("backup/" ++ filename) (by simp [backup_locations])
    have h3 := h ".git/objects/" (by simp [backup_locations])
    have h4 := h ("__pycache__/" ++ filename) (by simp [backup_locations])
    have h5 := h ("temp/" ++ filename) (by simp [backup_locations])
    simp [restore_file_from_backup, backup_locations, restore_scan, h1, h2, h3, h4, h5]

/-- A filesystem in which only `.git/objects/` exists and every copy
succeeds. -/
def thirdOnlyFS : BackupFS :=
  { pathExists := fun loc => loc == ".git/objects/"
    copySucceeds := fun _ => true }

/-- A filesystem in which no backup location exists. -/
def emptyBackupFS : BackupFS :=
  { pathExists := fun _ => false
    copySucceeds := fun _ => true }

/-- Witness for C6: with the file present only at the third candidate the
restore succeeds from `.git/objects/`, and with no candidate present it
fails without creating a file. -/
theorem restore_file_from_backup_scan_spec_witness :
    restore_file_from_backup thirdOnlyFS "x.py" = (true, some ".git/objects/") ∧
    restore_file_from_backup emptyBackupFS "x.py" = (false, none) := by
  constructor
  · exact (restore_file_from_backup_scan_spec thirdOnlyFS "x.py").2.1
      (by decide) (by decide) (by decide) (by decide) (by decide) (by decide)
  · exact (restore_file_from_backup_scan_spec emptyBackupFS "x.py").2.2
      (fun loc _ => rfl)

/-- Whether a probe outcome counts as a pass in `run_test`: a returned
boolean is taken as-is, a raised exception counts as a failure. -/
def probe_passes : ProbeResult → Bool
  | ProbeResult.ok b => b
  | ProbeResult.raises _ => false

/-- The ordered `test_results` produced by the test loop: one entry per
probe, in suite order, pairing the probe's name with its pass/fail
outcome. -/
theorem run_tests_from_results (tests : List (String × ProbeResult)) :
    ∀ st : TesterState, (run_tests_from st tests).2.1 =
      tests.map (fun p => (p.1, probe_passes p.2)) := by
  induction tests with
  | nil => intro st; rfl
  | cons t rest ih =>
    intro st
    obtain ⟨test_name, r⟩ := t
    cases r with
    | ok b =>
      cases b <;> simp [run_tests_from, run_test, probe_passes, ih]
    | raises msg =>
      simp [run_tests_from, run_test, probe_passes, ih]

/-- The counters after the test loop: every probe increments
`total_tests`, and each probe increments exactly one of `passed_tests` and
`failed_tests` according to its outcome. -/
theorem run_tests_from_counts (tests : List (String × ProbeResult)) :
    ∀ st : TesterState,
      (run_tests_from st tests).1.total_tests = st.total_tests + tests.length ∧
      (run_tests_from st tests).1.passed_tests =
        st.passed_tests + (tests.filter fun p => probe_passes p.2).length ∧
      (run_tests_from st tests).1.failed_tests =
        st.failed_tests + (tests.filter fun p => !probe_passes p.2).length := by
  induction tests with
  | nil => intro st; exact ⟨rfl, rfl, rfl⟩
  | cons t rest ih =>
    intro st
    obtain ⟨test_name, r⟩ := t
    cases r with
    | ok b =>
      cases b <;>
        simp [run_tests_from, run_test, probe_passes, ih, Nat.add_assoc,
          Nat.add_comm 1, List.filter]
    | raises msg =>
      simp [run_tests_from, run_test, probe_passes, ih, Nat.add_assoc,
        Nat.add_comm 1, List.filter]

/-- The error line printed for a raising probe appears in the log of the
test loop. -/
theorem run_tests_from_log_mem (tests : List (String × ProbeResult)) :
    ∀ (st : TesterState) (K : Nat) (test_name msg : String),
      tests[K]? = some (test_name, ProbeResult.raises msg) →
      ("❌ ERROR in " ++ test_name ++ ": " ++ msg) ∈ (run_tests_from st tests).2.2 := by
  induction tests with
  | nil => intro st K n m h; simp at h
  | cons t rest ih =>
    intro st K test_name msg h
    cases K with
    | zero =>
      simp only [List.getElem?_cons_zero, Option.some_inj] at h
      subst h
      simp [run_tests_from, run_test]
    | succ K =>
      simp only [List.getElem?_cons_succ] at h
      obtain ⟨n0, r0⟩ := t
      cases r0 with
      | ok b =>
        cases b <;>
          · simp only [run_tests_from, run_test, List.cons_append, List.nil_append,
              List.mem_cons]
            exact Or.inr (Or.inr (ih _ K test_name msg h))
      | raises m0 =>
        simp only [run_tests_from, run_test, List.cons_append, List.nil_append,
          List.mem_cons]
        exact Or.inr (Or.inr (ih _ K test_name msg h))

/-- `run_comprehensive_tests` unfolded into the loop's components. -/
theorem run_comprehensive_tests_def (tests : List (String × ProbeResult)) :
    run_comprehensive_tests tests =
      ({ total_tests := (run_tests_from ⟨0, 0, 0⟩ tests).1.total_tests
         passed_tests := (run_tests_from ⟨0, 0, 0⟩ tests).1.passed_tests
         failed_tests := (run_tests_from ⟨0, 0, 0⟩ tests).1.failed_tests
         success_rate := success_rate (run_tests_from ⟨0, 0, 0⟩ tests).1.passed_tests
           (run_tests_from ⟨0, 0, 0⟩ tests).1.total_tests
         test_results := (run_tests_from ⟨0, 0, 0⟩ tests).2.1
         system_status :=
           if (run_tests_from ⟨0, 0, 0⟩ tests).1.failed_tests = 0 then "healthy"
           else "issues_detected" },
       (run_tests_from ⟨0, 0, 0⟩ tests).2.2) := rfl

/-- C4: for every suite of probes in which probe `K` raises, the raised
exception is caught (the model is total), the suite reports
`total_tests = N`, every probe has its outcome recorded in order (so
probes after `K` still execute), probe `K` is recorded as failed with the
exception message printed to the log, and `failed_tests` counts exactly
the failing probes, probe `K` among them. -/
theorem run_suite_isolates_raising_probe
    (tests : List (String × ProbeResult)) (K : Nat) (test_name msg : String)
    (hK : tests[K]? = some (test_name, ProbeResult.raises msg)) :
    (run_comprehensive_tests tests).1.total_tests = tests.length ∧
    (run_comprehensive_tests tests).1.test_results =
      tests.map (fun p => (p.1, probe_passes p.2)) ∧
    (run_comprehensive_tests tests).1.test_results[K]? = some (test_name, false) ∧
    ("❌ ERROR in " ++ test_name ++ ": " ++ msg) ∈ (run_comprehensive_tests tests).2 ∧
    (run_comprehensive_tests tests).1.failed_tests =
      (tests.filter fun p => !probe_passes p.2).length := by
  have hres := run_tests_from_results tests ⟨0, 0, 0⟩
  have hcounts := run_tests_from_counts tests ⟨0, 0, 0⟩
  have hlog := run_tests_from_log_mem tests ⟨0, 0, 0⟩ K test_name msg hK
  rw [run_comprehensive_tests_def]
  refine ⟨by simpa using hcounts.1, by rw [hres], ?_, hlog, by simpa using hcounts.2.2⟩
  simp only [hres, List.getElem?_map, hK, Option.map_some]
  rfl

/-- A three-probe suite whose middle probe raises. -/
def raisingSuite : List (String × ProbeResult) :=
  [("a", ProbeResult.ok true), ("b", ProbeResult.raises "boom"),
   ("c", ProbeResult.ok true)]

/-- Witness for C4 at the concrete suite `raisingSuite`, whose probe 1
raises with message "boom". -/
theorem run_suite_isolates_raising_probe_witness :
    (run_comprehensive_tests raisingSuite).1.total_tests = raisingSuite.length ∧
    (run_comprehensive_tests raisingSuite).1.test_results =
      raisingSuite.map (fun p => (p.1, probe_passes p.2)) ∧
    (run_comprehensive_tests raisingSuite).1.test_results[1]? = some ("b", false) ∧
    ("❌ ERROR in " ++ "b" ++ ": " ++ "boom") ∈ (run_comprehensive_tests raisingSuite).2 ∧
    (run_comprehensive_tests raisingSuite).1.failed_tests =
      (raisingSuite.filter fun p => !probe_passes p.2).length :=
  run_suite_isolates_raising_probe raisingSuite 1 "b" "boom" (by decide)

/-- The success-rate expression stays in `[0, 100]` whenever the pass
count is at most the total count. -/
theorem success_rate_mem_Icc (p t : Nat) (h : p ≤ t) :
    0 ≤ success_rate p t ∧ success_rate p t ≤ 100 := by
  unfold success_rate
  split
  · rename_i ht
    have ht0 : (0 : Rat) < t := by exact_mod_cast ht
    have hp : (p : Rat) ≤ t := by exact_mod_cast h
    constructor
    · positivity
    · calc (p : Rat) / t * 100 ≤ 1 * 100 := by
            apply mul_le_mul_of_nonneg_right _ (by norm_num)
            exact (div_le_one ht0).mpr hp
        _ = 100 := by norm_num
  · exact ⟨le_refl 0, by norm_num⟩

/-- C7: for the counts produced by any run of the aggregator the reported
success rate lies in `[0, 100]`; the rate is `0` (no division error) when
the total is `0`, and three passes out of four give rate `75`. -/
theorem success_rate_bounds_and_values (tests : List (String × ProbeResult)) :
    (0 ≤ (run_comprehensive_tests tests).1.success_rate ∧
     (run_comprehensive_tests tests).1.success_rate ≤ 100) ∧
    success_rate 0 0 = 0 ∧
    success_rate 3 4 = (75 : Rat) := by
  refine ⟨?_, rfl, by norm_num [success_rate]⟩
  have hcounts := run_tests_from_counts tests ⟨0, 0, 0⟩
  have hle : (run_tests_from (⟨0, 0, 0⟩ : TesterState) tests).1.passed_tests ≤
      (run_tests_from (⟨0, 0, 0⟩ : TesterState) tests).1.total_tests := by
    rw [hcounts.1, hcounts.2.1]
    simpa using List.length_filter_le _ tests
  rw [run_comprehensive_tests_def]
  exact success_rate_mem_Icc _ _ hle

/-- The key-membership test inside `updateAssoc` agrees with membership in
the key list. -/
theorem any_fst_beq_iff_mem (m : List (String × Bool × String)) (k : String) :
    m.any (fun p => p.1 == k) = true ↔ k ∈ m.map Prod.fst := by
  simp only [List.any_eq_true, List.mem_map, beq_iff_eq]

/-- Updating the value at a present key leaves the key list unchanged. -/
theorem map_fst_update (k : String) (v : Bool × String) :
    ∀ m : List (String × Bool × String),
      (m.map (fun p => if p.1 == k then (k, v) else p)).map Prod.fst =
        m.map Prod.fst := by
  intro m
  induction m with
  | nil => rfl
  | cons p rest ih =>
    simp only [List.map_cons, ih]
    congr 1
    by_cases hp : (p.1 == k) = true
    · rw [if_pos hp, eq_of_beq hp]
    · rw [if_neg hp]

/-- The key list after a dict assignment: unchanged when the key was
present, extended at the end otherwise. -/
theorem updateAssoc_map_fst (m : List (String × Bool × String)) (k : String)
    (v : Bool × String) :
    (updateAssoc m k v).map Prod.fst =
      if k ∈ m.map Prod.fst then m.map Prod.fst else m.map Prod.fst ++ [k] := by
  unfold updateAssoc
  split
  · rename_i h
    rw [if_pos ((any_fst_beq_iff_mem m k).mp h), map_fst_update]
  · rename_i h
    rw [if_neg (fun hc => h ((any_fst_beq_iff_mem m k).mpr hc)), List.map_append]
    rfl

/-- Looking up the assigned key in the update-in-place branch yields the
new value whenever the key was present. -/
theorem lookup_map_update (k : String) (v : Bool × String) :
    ∀ m : List (String × Bool × String),
      List.lookup k (m.map (fun p => if p.1 == k then (k, v) else p)) =
        if m.any (fun p => p.1 == k) then some v else none := by
  intro m
  induction m with
  | nil => rfl
  | cons p rest ih =>
    simp only [List.map_cons, List.any_cons]
    by_cases hp : (p.1 == k) = true
    · rw [if_pos hp]
      simp only [hp, Bool.true_or]
      rw [if_pos trivial]
      exact List.lookup_cons_self
    · have hb : (p.1 == k) = false := Bool.eq_false_iff.mpr hp
      rw [if_neg hp]
      simp only [hb, Bool.false_or]
      obtain ⟨a, b⟩ := p
      have hk : (k == a) = false := by
        rw [beq_eq_false_iff_ne] at hb ⊢
        exact fun he => hb he.symm
      rw [List.lookup_cons, hk]
      exact ih

/-- Looking up the assigned key in the append branch yields the new value
whenever the key was absent. -/
theorem lookup_append_single (k : String) (v : Bool × String) :
    ∀ m : List (String × Bool × String),
      m.any (fun p => p.1 == k) = false →
      List.lookup k (m ++ [(k, v)]) = some v := by
  intro m
  induction m with
  | nil =>
    intro _
    rw [List.nil_append]
    exact List.lookup_cons_self
  | cons p rest ih =>
    intro h
    obtain ⟨a, b⟩ := p
    simp only [List.any_cons, Bool.or_eq_false_iff] at h
    have hk : (k == a) = false := by
      have h1 := h.1
      rw [beq_eq_false_iff_ne] at h1 ⊢
      exact fun he => h1 he.symm
    rw [List.cons_append, List.lookup_cons, hk]
    exact ih h.2

/-- Dict assignment followed by lookup of the same key yields the
assigned value. -/
theorem lookup_updateAssoc_self (m : List (String × Bool × String))
    (k : String) (v : Bool × String) :
    List.lookup k (updateAssoc m k v) = some v := by
  unfold updateAssoc
  split
  · rename_i h
    rw [lookup_map_update, h]
    rfl
  · rename_i h
    exact lookup_append_single k v m (Bool.eq_false_iff.mpr h)

/-- Updating the value at key `k` does not change lookups of other keys
(update-in-place branch). -/
theorem lookup_map_update_ne (k : String) (v : Bool × String) (f : String)
    (hne : f ≠ k) :
    ∀ m : List (String × Bool × String),
      List.lookup f (m.map (fun p => if p.1 == k then (k, v) else p)) =
        List.lookup f m := by
  intro m
  induction m with
  | nil => rfl
  | cons p rest ih =>
    obtain ⟨a, b⟩ := p
    simp only [List.map_cons]
    by_cases hp : (a == k) = true
    · have h1 : (f == k) = false := beq_eq_false_iff_ne.mpr hne
      have h2 : (f == a) = false := by rw [eq_of_beq hp]; exact h1
      rw [if_pos hp, List.lookup_cons, List.lookup_cons, h1, h2]
      exact ih
    · rw [if_neg hp, List.lookup_cons, List.lookup_cons]
      cases hf : (f == a) with
      | false => exact ih
      | true => rfl

/-- Appending a pair with key `k` does not change lookups of other keys. -/
theorem lookup_append_single_ne (k : String) (v : Bool × String) (f : String)
    (hne : f ≠ k) :
    ∀ m : List (String × Bool × String),
      List.lookup f (m ++ [(k, v)]) = List.lookup f m := by
  intro m
  induction m with
  | nil =>
    have h1 : (f == k) = false := beq_eq_false_iff_ne.mpr hne
    rw [List.nil_append, List.lookup_cons, h1, List.lookup_nil]
  | cons p rest ih =>
    obtain ⟨a, b⟩ := p
    rw [List.cons_append, List.lookup_cons, List.lookup_cons]
    cases hf : (f == a) with
    | false => exact ih
    | true => rfl

/-- Dict assignment at key `k` does not change lookups of other keys. -/
theorem lookup_updateAssoc_ne (m : List (String × Bool × String))
    (k : String) (v : Bool × String) (f : String) (hne : f ≠ k) :
    List.lookup f (updateAssoc m k v) = List.lookup f m := by
  unfold updateAssoc
  split
  · exact lookup_map_update_ne k v f hne m
  · exact lookup_append_single_ne k v f hne m

/-- The key list of the final results dict is a subsequence of the key
list of the accumulator followed by the remaining filenames: each
filename is inserted at its first occurrence and later occurrences only
overwrite values. -/
theorem verify_from_keys_sublist (oracle : Nat → String → OracleOutcome)
    (fs : List String) :
    ∀ (i : Nat) (acc : List (String × Bool × String)),
      List.Sublist ((verify_multiple_files_from oracle i fs acc).2.map Prod.fst)
        (acc.map Prod.fst ++ fs) := by
  induction fs with
  | nil =>
    intro i acc
    rw [List.append_nil]
    exact List.Sublist.refl _
  | cons f rest ih =>
    intro i acc
    rw [verify_multiple_files_from_cons]
    have h := ih (i + 1) (updateAssoc acc f (verify_file_in_github (oracle i f)))
    rw [updateAssoc_map_fst] at h
    by_cases hf : f ∈ acc.map Prod.fst
    · rw [if_pos hf] at h
      exact h.trans ((List.sublist_cons_self f rest).append_left (acc.map Prod.fst))
    · rw [if_neg hf] at h
      simpa [List.append_assoc] using h

/-- Membership in the key list of the final results dict: exactly the
accumulator keys plus the processed filenames. -/
theorem verify_from_keys_mem (oracle : Nat → String → OracleOutcome)
    (fs : List String) :
    ∀ (i : Nat) (acc : List (String × Bool × String)) (f : String),
      f ∈ (verify_multiple_files_from oracle i fs acc).2.map Prod.fst ↔
        f ∈ acc.map Prod.fst ∨ f ∈ fs := by
  induction fs with
  | nil =>
    intro i acc f
    simp only [List.not_mem_nil, or_false]
    exact Iff.rfl
  | cons g rest ih =>
    intro i acc f
    rw [verify_multiple_files_from_cons, ih]
    rw [updateAssoc_map_fst]
    by_cases hg : g ∈ acc.map Prod.fst
    · rw [if_pos hg]
      simp only [List.mem_cons]
      constructor
      · rintro (h | h)
        · exact Or.inl h
        · exact Or.inr (Or.inr h)
      · rintro (h | rfl | h)
        · exact Or.inl h
        · exact Or.inl hg
        · exact Or.inr h
    · rw [if_neg hg]
      simp only [List.mem_append, List.mem_singleton, List.mem_cons]
      tauto

/-- The key list of the final results dict has no duplicates when the
accumulator's keys have none: the dict keys each filename once. -/
theorem verify_from_keys_nodup (oracle : Nat → String → OracleOutcome)
    (fs : List String) :
    ∀ (i : Nat) (acc : List (String × Bool × String)),
      (acc.map Prod.fst).Nodup →
      ((verify_multiple_files_from oracle i fs acc).2.map Prod.fst).Nodup := by
  induction fs with
  | nil => intro i acc h; exact h
  | cons g rest ih =>
    intro i acc h
    rw [verify_multiple_files_from_cons]
    apply ih
    rw [updateAssoc_map_fst]
    by_cases hg : g ∈ acc.map Prod.fst
    · rwa [if_pos hg]
    · rw [if_neg hg]
      rw [List.nodup_append]
      exact ⟨h, List.nodup_singleton g,
        fun a ha hb => hg ((List.mem_singleton.mp hb) ▸ ha)⟩

/-- On a duplicate-free filename list disjoint from the accumulator's
keys, the final key list is exactly the accumulator keys followed by the
filenames in input order. -/
theorem verify_from_keys_of_nodup (oracle : Nat → String → OracleOutcome)
    (fs : List String) :
    ∀ (i : Nat) (acc : List (String × Bool × String)),
      fs.Nodup → (∀ f ∈ fs, f ∉ acc.map Prod.fst) →
      (verify_multiple_files_from oracle i fs acc).2.map Prod.fst =
        acc.map Prod.fst ++ fs := by
  induction fs with
  | nil =>
    intro i acc _ _
    rw [List.append_nil]
    rfl
  | cons g rest ih =>
    intro i acc hnd hdisj
    rw [verify_multiple_files_from_cons]
    have hg : g ∉ acc.map Prod.fst := hdisj g (List.mem_cons_self g rest)
    have hrest : ∀ f ∈ rest,
        f ∉ (updateAssoc acc g (verify_file_in_github (oracle i g))).map Prod.fst := by
      intro f hf
      rw [updateAssoc_map_fst, if_neg hg]
      simp only [List.mem_append, List.mem_singleton]
      rintro (h | rfl)
      · exact hdisj f (List.mem_cons_of_mem g hf) h
      · exact (List.nodup_cons.mp hnd).1 hf
    rw [ih (i + 1) _ (List.nodup_cons.mp hnd).2 hrest, updateAssoc_map_fst, if_neg hg,
      List.append_assoc, List.singleton_append]

/-- Filenames not occurring among the remaining inputs keep their
accumulator entry. -/
theorem verify_from_lookup_of_not_mem (oracle : Nat → String → OracleOutcome)
    (fs : List String) :
    ∀ (i : Nat) (acc : List (String × Bool × String)) (f : String), f ∉ fs →
      List.lookup f (verify_multiple_files_from oracle i fs acc).2 =
        List.lookup f acc := by
  induction fs with
  | nil => intro i acc f _; rfl
  | cons g rest ih =>
    intro i acc f hf
    rw [verify_multiple_files_from_cons]
    have h1 : f ∉ rest := fun h => hf (List.mem_cons_of_mem g h)
    have h2 : f ≠ g := fun h => hf (h ▸ List.mem_cons_self g rest)
    rw [ih (i + 1) _ f h1, lookup_updateAssoc_ne _ _ _ _ h2]

/-- The dict entry for each processed filename is the verification result
of its last occurrence: the occurrence at position `j`, after which the
filename does not occur again, determines the stored value. -/
theorem verify_from_lookup_last (oracle : Nat → String → OracleOutcome)
    (fs : List String) :
    ∀ (i : Nat) (acc : List (String × Bool × String)) (f : String), f ∈ fs →
      ∃ j, ∃ hj : j < fs.length, fs.get ⟨j, hj⟩ = f ∧
        (∀ j' (hj' : j' < fs.length), j < j' → fs.get ⟨j', hj'⟩ ≠ f) ∧
        List.lookup f (verify_multiple_files_from oracle i fs acc).2 =
          some (verify_file_in_github (oracle (i + j) f)) := by
  induction fs with
  | nil => intro i acc f hf; exact absurd hf (List.not_mem_nil f)
  | cons g rest ih =>
    intro i acc f hf
    by_cases hfr : f ∈ rest
    · obtain ⟨j, hj, hget, hlast, hlook⟩ :=
        ih (i + 1) (updateAssoc acc g (verify_file_in_github (oracle i g))) f hfr
      refine ⟨j + 1, Nat.succ_lt_succ hj, by simpa using hget, ?_, ?_⟩
      · intro j' hj' hlt
        cases j' with
        | zero => omega
        | succ j'' =>
          have hj'' : j'' < rest.length := Nat.lt_of_succ_lt_succ hj'
          have := hlast j'' hj'' (Nat.lt_of_succ_lt_succ hlt)
          simpa using this
      · rw [verify_multiple_files_from_cons, hlook]
        have : i + 1 + j = i + (j + 1) := by omega
        rw [this]
    · have hfg : f = g := by
        rcases List.mem_cons.mp hf with h | h
        · exact h
        · exact absurd h hfr
      subst hfg
      refine ⟨0, Nat.succ_pos _, rfl, ?_, ?_⟩
      · intro j' hj' hlt
        cases j' with
        | zero => omega
        | succ j'' =>
          intro hcon
          have hj'' : j'' < rest.length := Nat.lt_of_succ_lt_succ hj'
          have : rest.get ⟨j'', hj''⟩ ∈ rest := List.get_mem rest j'' hj''
          rw [List.get_cons_succ] at hcon
          exact hfr (hcon ▸ this)
      · rw [verify_multiple_files_from_cons,
          verify_from_lookup_of_not_mem oracle rest _ _ _ hfr,
          lookup_updateAssoc_self]
        rw [Nat.add_zero]

/-- The query trace of the verification loop: one query per input
filename, in input order, with consecutive call indices starting at `i`. -/
theorem verify_from_trace (oracle : Nat → String → OracleOutcome)
    (fs : List String) :
    ∀ (i : Nat) (acc : List (String × Bool × String)),
      (verify_multiple_files_from oracle i fs acc).1.map Prod.snd = fs ∧
      (verify_multiple_files_from oracle i fs acc).1.map Prod.fst =
        List.range' i fs.length := by
  induction fs with
  | nil => intro i acc; exact ⟨rfl, rfl⟩
  | cons g rest ih =>
    intro i acc
    rw [verify_multiple_files_from_cons]
    have h := ih (i + 1) (updateAssoc acc g (verify_file_in_github (oracle i g)))
    constructor
    · simp only [List.map_cons, h.1]
    · simp only [List.map_cons, h.2, List.length_cons, List.range']

/-- The categorisation loop splits the results dict into the filter of
entries marked safe and the filter of the rest, keeping order and
projecting to `(filename, message)` pairs. -/
theorem categorize_results_eq :
    ∀ l : List (String × Bool × String), categorize_results l =
      ((l.filter (fun p => p.2.1)).map (fun p => (p.1, p.2.2)),
       (l.filter (fun p => !p.2.1)).map (fun p => (p.1, p.2.2))) := by
  intro l
  induction l with
  | nil => rfl
  | cons p rest ih =>
    obtain ⟨a, ex, msg⟩ := p
    cases ex <;> simp [categorize_results, ih, List.filter]

/-- `safe_cleanup_with_verification` unfolded into the categorisation of
the results dict. -/
theorem safe_cleanup_def (oracle : Nat → String → OracleOutcome)
    (files : List String) (ts : String) :
    safe_cleanup_with_verification oracle files ts =
      { total_files := files.length
        safe_to_delete :=
          (categorize_results (verify_multiple_files oracle files)).1.length
        not_safe_to_delete :=
          (categorize_results (verify_multiple_files oracle files)).2.length
        safe_files := (categorize_results (verify_multiple_files oracle files)).1
        not_safe_files := (categorize_results (verify_multiple_files oracle files)).2
        verification_timestamp := ts } := rfl

/-- The report fields of `safe_cleanup_with_verification` in terms of the
results dict. -/
theorem safe_cleanup_fields (oracle : Nat → String → OracleOutcome)
    (files : List String) (ts : String) :
    (safe_cleanup_with_verification oracle files ts).total_files = files.length ∧
    (safe_cleanup_with_verification oracle files ts).safe_files =
      ((verify_multiple_files oracle files).filter (fun p => p.2.1)).map
        (fun p => (p.1, p.2.2)) ∧
    (safe_cleanup_with_verification oracle files ts).not_safe_files =
      ((verify_multiple_files oracle files).filter (fun p => !p.2.1)).map
        (fun p => (p.1, p.2.2)) ∧
    (safe_cleanup_with_verification oracle files ts).safe_to_delete =
      (safe_cleanup_with_verification oracle files ts).safe_files.length ∧
    (safe_cleanup_with_verification oracle files ts).not_safe_to_delete =
      (safe_cleanup_with_verification oracle files ts).not_safe_files.length := by
  rw [safe_cleanup_def, categorize_results_eq]
  exact ⟨rfl, rfl, rfl, rfl, rfl⟩

/-- C8: for every input list, the safe bucket lists its filenames as a
subsequence of the input list, and likewise for the unsafe bucket: within
each bucket, results appear in input order (for a repeated filename, at
its first occurrence, where the dict inserted its key). -/
theorem buckets_preserve_input_order (oracle : Nat → String → OracleOutcome)
    (files : List String) (ts : String) :
    List.Sublist
      ((safe_cleanup_with_verification oracle files ts).safe_files.map Prod.fst)
      files ∧
    List.Sublist
      ((safe_cleanup_with_verification oracle files ts).not_safe_files.map Prod.fst)
      files := by
  have hkeys : List.Sublist ((verify_multiple_files oracle files).map Prod.fst) files := by
    have h := verify_from_keys_sublist oracle files 0 []
    simpa using h
  have hfields := safe_cleanup_fields oracle files ts
  constructor
  · rw [hfields.2.1, List.map_map]
    exact (((verify_multiple_files oracle files).filter_sublist).map Prod.fst).trans hkeys
  · rw [hfields.2.2.1, List.map_map]
    exact (((verify_multiple_files oracle files).filter_sublist).map Prod.fst).trans hkeys

/-- C2, amended: for every duplicate-free input list, the report satisfies
`safe_to_delete + not-safe count = total_files`, and the two buckets'
filename lists together are a permutation of the input list, so each input
filename appears in exactly one bucket, with no duplicates and no
omissions.  (On inputs with duplicated filenames the counts differ: see
the counterexample.) -/
theorem cleanup_report_partitions_nodup_input
    (oracle : Nat → String → OracleOutcome) (files : List String) (ts : String)
    (hnd : files.Nodup) :
    (safe_cleanup_with_verification oracle files ts).total_files =
      (safe_cleanup_with_verification oracle files ts).safe_to_delete +
      (safe_cleanup_with_verification oracle files ts).not_safe_to_delete ∧
    List.Perm
      ((safe_cleanup_with_verification oracle files ts).safe_files.map Prod.fst ++
       (safe_cleanup_with_verification oracle files ts).not_safe_files.map Prod.fst)
      files := by
  have hfields := safe_cleanup_fields oracle files ts
  have hkeys : (verify_multiple_files oracle files).map Prod.fst = files := by
    have h := verify_from_keys_of_nodup oracle files 0 [] hnd (by simp)
    simpa using h
  have hperm : List.Perm
      (((verify_multiple_files oracle files).filter (fun p => p.2.1)).map Prod.fst ++
       ((verify_multiple_files oracle files).filter (fun p => !p.2.1)).map Prod.fst)
      files := by
    rw [← List.map_append]
    have hp := (List.filter_append_perm (fun p => p.2.1)
      (verify_multiple_files oracle files)).map Prod.fst
    rwa [hkeys] at hp
  constructor
  · have hlen := hperm.length_eq
    rw [List.length_append, List.length_map, List.length_map] at hlen
    rw [hfields.1, hfields.2.2.2.1, hfields.2.2.2.2, hfields.2.1, hfields.2.2.1,
      List.length_map, List.length_map]
    omega
  · rw [hfields.2.1, hfields.2.2.1, List.map_map, List.map_map]
    exact hperm

/-- C2, counterexample: on the duplicated input `["a.py", "a.py"]` (oracle
always succeeding with zero hits) the report has `total_files = 2` but the
two bucket counts sum to `1`, because the results dict is keyed by
filename. -/
theorem cleanup_counts_duplicate_counterexample :
    (safe_cleanup_with_verification (fun _ _ => OracleOutcome.success [])
      ["a.py", "a.py"] "ts").total_files = 2 ∧
    (safe_cleanup_with_verification (fun _ _ => OracleOutcome.success [])
      ["a.py", "a.py"] "ts").safe_to_delete +
      (safe_cleanup_with_verification (fun _ _ => OracleOutcome.success [])
        ["a.py", "a.py"] "ts").not_safe_to_delete = 1 ∧
    ¬((safe_cleanup_with_verification (fun _ _ => OracleOutcome.success [])
        ["a.py", "a.py"] "ts").safe_to_delete +
      (safe_cleanup_with_verification (fun _ _ => OracleOutcome.success [])
        ["a.py", "a.py"] "ts").not_safe_to_delete =
      (safe_cleanup_with_verification (fun _ _ => OracleOutcome.success [])
        ["a.py", "a.py"] "ts").total_files) := by
  decide

/-- Witness for C2 (amended) at the duplicate-free input
`["a.py", "b.py"]`. -/
theorem cleanup_report_partitions_nodup_input_witness :
    (safe_cleanup_with_verification (fun _ _ => OracleOutcome.success ["core"])
      ["a.py", "b.py"] "ts").total_files =
      (safe_cleanup_with_verification (fun _ _ => OracleOutcome.success ["core"])
        ["a.py", "b.py"] "ts").safe_to_delete +
      (safe_cleanup_with_verification (fun _ _ => OracleOutcome.success ["core"])
        ["a.py", "b.py"] "ts").not_safe_to_delete ∧
    List.Perm
      ((safe_cleanup_with_verification (fun _ _ => OracleOutcome.success ["core"])
        ["a.py", "b.py"] "ts").safe_files.map Prod.fst ++
       (safe_cleanup_with_verification (fun _ _ => OracleOutcome.success ["core"])
        ["a.py", "b.py"] "ts").not_safe_files.map Prod.fst)
      ["a.py", "b.py"] :=
  cleanup_report_partitions_nodup_input (fun _ _ => OracleOutcome.success ["core"])
    ["a.py", "b.py"] "ts" (by decide)

/-- C10: on an input list that may repeat filenames, the Oracle is queried
once per occurrence (the query trace lists every occurrence in order with
consecutive call indices), the results dict is keyed by filename with a
later occurrence's result overwriting an earlier one (the stored entry is
the result of the last occurrence), each distinct filename appears exactly
once across the two buckets, the bucket counts sum to the number of
distinct filenames, and `total_files` is the raw input length. -/
theorem duplicate_filenames_dedup_behavior (oracle : Nat → String → OracleOutcome)
    (files : List String) (ts : String) (f : String) (hf : f ∈ files) :
    (oracle_query_trace oracle files).map Prod.snd = files ∧
    (oracle_query_trace oracle files).map Prod.fst = List.range files.length ∧
    ((verify_multiple_files oracle files).map Prod.fst).Nodup ∧
    (safe_cleanup_with_verification oracle files ts).total_files = files.length ∧
    (safe_cleanup_with_verification oracle files ts).safe_to_delete +
      (safe_cleanup_with_verification oracle files ts).not_safe_to_delete =
      files.dedup.length ∧
    ((safe_cleanup_with_verification oracle files ts).safe_files.map Prod.fst ++
      (safe_cleanup_with_verification oracle files ts).not_safe_files.map Prod.fst).count
      f = 1 ∧
    (∃ j, ∃ hj : j < files.length, files.get ⟨j, hj⟩ = f ∧
      (∀ j' (hj' : j' < files.length), j < j' → files.get ⟨j', hj'⟩ ≠ f) ∧
      List.lookup f (verify_multiple_files oracle files) =
        some (verify_file_in_github (oracle j f))) := by
  have htrace := verify_from_trace oracle files 0 []
  have hnodup := verify_from_keys_nodup oracle files 0 [] (by simp)
  have hfields := safe_cleanup_fields oracle files ts
  have hkeysmem : ∀ g, g ∈ (verify_multiple_files oracle files).map Prod.fst ↔
      g ∈ files := by
    intro g
    have h := verify_from_keys_mem oracle files 0 [] g
    simpa using h
  have hperm2 : List.Perm
      (((verify_multiple_files oracle files).filter (fun p => p.2.1)).map Prod.fst ++
       ((verify_multiple_files oracle files).filter (fun p => !p.2.1)).map Prod.fst)
      ((verify_multiple_files oracle files).map Prod.fst) := by
    rw [← List.map_append]
    exact (List.filter_append_perm (fun p => p.2.1)
      (verify_multiple_files oracle files)).map Prod.fst
  have hkeyslen : ((verify_multiple_files oracle files).map Prod.fst).length =
      files.dedup.length := by
    have h1 : ((verify_multiple_files oracle files).map Prod.fst).toFinset =
        files.toFinset := by
      ext g
      simp only [List.mem_toFinset]
      exact hkeysmem g
    calc ((verify_multiple_files oracle files).map Prod.fst).length
        = ((verify_multiple_files oracle files).map Prod.fst).toFinset.card :=
          (List.toFinset_card_of_nodup hnodup).symm
      _ = files.toFinset.card := by rw [h1]
      _ = files.dedup.length := List.card_toFinset files
  refine ⟨htrace.1, ?_, hnodup, hfields.1, ?_, ?_, ?_⟩
  · exact htrace.2.trans (List.range_eq_range' _).symm
  · have hlen := hperm2.length_eq
    rw [List.length_append, List.length_map, List.length_map, List.length_map] at hlen
    have hdlen := hkeyslen
    rw [List.length_map] at hdlen
    have h1 : (safe_cleanup_with_verification oracle files ts).safe_to_delete =
        (List.filter (fun p => p.2.1) (verify_multiple_files oracle files)).length := by
      rw [hfields.2.2.2.1, hfields.2.1, List.length_map]
    have h2 : (safe_cleanup_with_verification oracle files ts).not_safe_to_delete =
        (List.filter (fun p => !p.2.1) (verify_multiple_files oracle files)).length := by
      rw [hfields.2.2.2.2, hfields.2.2.1, List.length_map]
    rw [h1, h2]
    omega
  · have hfin : f ∈ (verify_multiple_files oracle files).map Prod.fst :=
      (hkeysmem f).mpr hf
    have hcnt : ((verify_multiple_files oracle files).map Prod.fst).count f = 1 :=
      List.count_eq_one_of_mem hnodup hfin
    rw [hfields.2.1, hfields.2.2.1, List.map_map, List.map_map]
    exact (hperm2.count_eq f).trans hcnt
  · obtain ⟨j, hj, hget, hlast, hlook⟩ :=
      verify_from_lookup_last oracle files 0 [] f hf
    rw [Nat.zero_add] at hlook
    exact ⟨j, hj, hget, hlast, hlook⟩

/-- An oracle whose outcome differs between the first call and later
calls, making the overwrite of a duplicated filename observable. -/
def dupOracle : Nat → String → OracleOutcome :=
  fun i _ => if i = 0 then OracleOutcome.success ["r1"] else OracleOutcome.success []

/-- Witness for C10 at the duplicated input `["a.py", "b.py", "a.py"]`
with `f = "a.py"`. -/
theorem duplicate_filenames_dedup_behavior_witness :
    (oracle_query_trace dupOracle ["a.py", "b.py", "a.py"]).map Prod.snd =
      ["a.py", "b.py", "a.py"] ∧
    (oracle_query_trace dupOracle ["a.py", "b.py", "a.py"]).map Prod.fst =
      List.range (["a.py", "b.py", "a.py"] : List String).length ∧
    ((verify_multiple_files dupOracle ["a.py", "b.py", "a.py"]).map Prod.fst).Nodup ∧
    (safe_cleanup_with_verification dupOracle ["a.py", "b.py", "a.py"] "ts").total_files =
      (["a.py", "b.py", "a.py"] : List String).length ∧
    (safe_cleanup_with_verification dupOracle ["a.py", "b.py", "a.py"] "ts").safe_to_delete +
      (safe_cleanup_with_verification dupOracle ["a.py", "b.py", "a.py"] "ts").not_safe_to_delete =
      (["a.py", "b.py", "a.py"] : List String).dedup.length ∧
    ((safe_cleanup_with_verification dupOracle ["a.py", "b.py", "a.py"] "ts").safe_files.map Prod.fst ++
      (safe_cleanup_with_verification dupOracle ["a.py", "b.py", "a.py"] "ts").not_safe_files.map Prod.fst).count
      "a.py" = 1 ∧
    (∃ j, ∃ hj : j < (["a.py", "b.py", "a.py"] : List String).length,
      (["a.py", "b.py", "a.py"] : List String).get ⟨j, hj⟩ = "a.py" ∧
      (∀ j' (hj' : j' < (["a.py", "b.py", "a.py"] : List String).length), j < j' →
        (["a.py", "b.py", "a.py"] : List String).get ⟨j', hj'⟩ ≠ "a.py") ∧
      List.lookup "a.py" (verify_multiple_files dupOracle ["a.py", "b.py", "a.py"]) =
        some (verify_file_in_github (dupOracle j "a.py"))) :=
  duplicate_filenames_dedup_behavior dupOracle ["a.py", "b.py", "a.py"] "ts" "a.py"
    (by decide)
